import Mathlib

/-!
Verification development for the Google Workspace extension's OAuth
credential-lifecycle subsystem.

Shallow embedding of:
  * `src/workspace-mcp-server/src/auth/AuthManager.ts` (the OAuth
    authorization coordinator: `getAuthenticatedClient`,
    `loadCachedCredentials`, `getAvailablePort`, `authWithWeb`),
  * `src/workspace-mcp-server/src/auth/token-storage/oauth-credential-storage.ts`
    (the credential format conversions `loadCredentials` / `saveCredentials`),
  * the secure browser launcher, the hybrid token storage and the
    file-storage encryption primitive (their implementation files are not in
    the repository snapshot; they are modelled from the design spec and
    pinned by their unit tests, see the doc comments below).

Asynchronous effects (credential-store calls, the HTTP listener, browser
launch) are embedded as an explicit event trace (`Event`); the single
incoming callback HTTP request (or the 5-minute timeout winning the race)
is an input of the environment (`AuthEnv.outcome`). JavaScript's string
truthiness, `parseInt` and `||` defaulting are modelled explicitly.
-/

set_option maxRecDepth 8192

namespace GWS

/-! ## JavaScript value modelling -/

/-- Whether the second list is a prefix of the first. -/
def listStartsWith : List Char → List Char → Bool
  | _, [] => true
  | [], _ :: _ => false
  | c :: cs, p :: ps => c = p && listStartsWith cs ps

/-- JS `s.startsWith(pre)`. -/
def strStartsWith (s pre : String) : Bool :=
  listStartsWith s.data pre.data

/-- Split a character list at every occurrence of `sep` (JS
`s.split(sep)` for a one-character separator). -/
def splitListOn (sep : Char) : List Char → List (List Char)
  | [] => [[]]
  | c :: rest =>
    if c = sep then [] :: splitListOn sep rest
    else
      match splitListOn sep rest with
      | [] => [[c]]
      | g :: gs => (c :: g) :: gs

/-- A JavaScript number restricted to the integer-or-NaN values produced by
`parseInt`. -/
inductive JsNum where
  | nan : JsNum
  | int (n : Int) : JsNum
deriving DecidableEq

/-- Truthiness of a JS `string | undefined | null` value: `undefined`, `null`
and the empty string are falsy. -/
def strTruthy : Option String → Bool
  | none => false
  | some s => s ≠ ""

/-- Models `v || undefined` (and `v || null`) on a JS string value: a falsy
value is replaced by "absent". -/
def orElseJs (v : Option String) : Option String :=
  if strTruthy v then v else none

/-- Models `v || undefined` on a JS number value: `undefined`, `NaN` and `0`
are falsy. -/
def jsNumOrUndefined : Option JsNum → Option Int
  | some (JsNum.int n) => if n = 0 then none else some n
  | _ => none

/-- The whitespace characters skipped by JS `parseInt`. -/
def jsWhitespace (c : Char) : Bool :=
  c = ' ' || c = '\t' || c = '\n' || c = '\r' || c = '\x0b' || c = '\x0c'

/-- Numeric value of a list of decimal digits. -/
def digitsVal (cs : List Char) : Nat :=
  cs.foldl (fun a c => a * 10 + (c.toNat - 48)) 0

/-- JavaScript `parseInt(s, 10)`: skip leading whitespace, optional sign,
then the longest prefix of decimal digits; `NaN` when there is no digit.
Characters after the digit prefix are ignored. -/
def jsParseInt (s : String) : JsNum :=
  let cs := s.data.dropWhile jsWhitespace
  let signRest : Bool × List Char :=
    match cs with
    | '-' :: r => (true, r)
    | '+' :: r => (false, r)
    | r => (false, r)
  let ds := signRest.2.takeWhile Char.isDigit
  if ds.isEmpty then JsNum.nan
  else JsNum.int ((if signRest.1 then (-1 : Int) else 1) * (digitsVal ds : Int))

/-! ## Hex encoding (Buffer `toString('hex')` / `from(_, 'hex')`) -/

/-- Lower-case hex digit for a value below 16 (`'0'` otherwise). -/
def hexDigit (n : Nat) : Char :=
  if n < 10 then Char.ofNat (48 + n) else if n < 16 then Char.ofNat (87 + n) else '0'

/-- The two hex digits of one byte. -/
def byteToHex (b : Nat) : List Char :=
  [hexDigit (b / 16 % 16), hexDigit (b % 16)]

/-- Lower-case hex encoding of a byte list. -/
def bytesToHex (bs : List Nat) : String :=
  String.mk (bs.map byteToHex).flatten

/-- Value of a single hex digit character, upper or lower case. -/
def hexVal? (c : Char) : Option Nat :=
  if '0' ≤ c ∧ c ≤ '9' then some (c.toNat - 48)
  else if 'a' ≤ c ∧ c ≤ 'f' then some (c.toNat - 87)
  else if 'A' ≤ c ∧ c ≤ 'F' then some (c.toNat - 55)
  else none

/-- Decode an even-length list of hex digit characters into bytes. -/
def hexPairs? : List Char → Option (List Nat)
  | [] => some []
  | a :: b :: rest =>
    match hexVal? a, hexVal? b, hexPairs? rest with
    | some x, some y, some bs => some ((16 * x + y) :: bs)
    | _, _, _ => none
  | [_] => none

/-- Decode a hex string into bytes; `none` on odd length or a non-hex
character. -/
def hexToBytes? (s : String) : Option (List Nat) :=
  hexPairs? s.data

/-- All entries of a byte list are actual bytes. -/
def ValidBytes (bs : List Nat) : Prop := ∀ b ∈ bs, b < 256

instance (bs : List Nat) : Decidable (ValidBytes bs) :=
  List.decidableBAll _ bs

/-! ## URL query parsing (`new URL(...).searchParams.get`) -/

/-- Percent-decoding of a character list: `+` becomes space, `%XY` with two
hex digits becomes the byte value (multi-byte UTF-8 sequences are modelled
one byte per character), anything else is kept. -/
def percentDecodeAux : List Char → List Char
  | [] => []
  | '%' :: a :: b :: rest =>
    match hexVal? a, hexVal? b with
    | some x, some y => Char.ofNat (16 * x + y) :: percentDecodeAux rest
    | _, _ => '%' :: percentDecodeAux (a :: b :: rest)
  | '+' :: rest => ' ' :: percentDecodeAux rest
  | c :: rest => c :: percentDecodeAux rest

/-- Percent-decoding of a string. -/
def percentDecode (s : String) : String :=
  String.mk (percentDecodeAux s.data)

/-- Drop a `#fragment` part from a request URL. -/
def stripFragment (u : String) : String :=
  String.mk (u.data.takeWhile (· ≠ '#'))

/-- The query string of a request URL: everything after the first `?` (and
before any `#`). -/
def queryString (u : String) : String :=
  match (stripFragment u).data.dropWhile (· ≠ '?') with
  | _ :: rest => String.mk rest
  | [] => ""

/-- The name/value pairs of a request URL's query string, in order: split
at `&`, drop empty segments, split each segment at its first `=` (a
segment without `=` has the empty value). -/
def queryPairs (u : String) : List (String × String) :=
  (splitListOn '&' (queryString u).data).filterMap fun seg =>
    if seg.isEmpty then none
    else
      let name := seg.takeWhile (· ≠ '=')
      let val :=
        match seg.dropWhile (· ≠ '=') with
        | [] => []
        | _ :: r => r
      some (String.mk (percentDecodeAux name), String.mk (percentDecodeAux val))

/-- `searchParams.get(key)`: the first value bound to `key`, or `null`. -/
def queryGet (u : String) (key : String) : Option String :=
  (queryPairs u).lookup key

/-! ## UTF-8, base64 and the JSON state payload -/

/-- UTF-8 encoding of one character. -/
def utf8EncodeChar (c : Char) : List Nat :=
  let n := c.toNat
  if n < 128 then [n]
  else if n < 2048 then [192 + n / 64, 128 + n % 64]
  else if n < 65536 then [224 + n / 4096, 128 + n / 64 % 64, 128 + n % 64]
  else [240 + n / 262144, 128 + n / 4096 % 64, 128 + n / 64 % 64, 128 + n % 64]

/-- UTF-8 encoding of a string (`Buffer.from(s)`). -/
def utf8Encode (s : String) : List Nat :=
  (s.data.map utf8EncodeChar).flatten

/-- The base64 alphabet. -/
def base64Chars : List Char :=
  "ABCDEFGHIJKLMNOPQRSTUVWXYZabcdefghijklmnopqrstuvwxyz0123456789+/".data

/-- The base64 character for a 6-bit value. -/
def b64Char (n : Nat) : Char := base64Chars.getD n 'A'

/-- Standard base64 encoding of a byte list, with `=` padding. -/
def base64EncodeBytes : List Nat → String
  | [] => ""
  | [a] => String.mk [b64Char (a / 4), b64Char (a % 4 * 16), '=', '=']
  | [a, b] => String.mk [b64Char (a / 4), b64Char (a % 4 * 16 + b / 16), b64Char (b % 16 * 4), '=']
  | a :: b :: c :: rest =>
    String.mk [b64Char (a / 4), b64Char (a % 4 * 16 + b / 16),
               b64Char (b % 16 * 4 + c / 64), b64Char (c % 64)]
      ++ base64EncodeBytes rest

/-- `Buffer.from(s).toString('base64')`. -/
def base64Encode (s : String) : String :=
  base64EncodeBytes (utf8Encode s)

/-- JSON string escaping of one character, as `JSON.stringify` does. -/
def jsonEscapeChar (c : Char) : String :=
  if c = '"' then "\\\""
  else if c = '\\' then "\\\\"
  else if c = '\n' then "\\n"
  else if c = '\r' then "\\r"
  else if c = '\t' then "\\t"
  else if c.toNat < 32 then
    "\\u00" ++ String.mk [hexDigit (c.toNat / 16 % 16), hexDigit (c.toNat % 16)]
  else String.mk [c]

/-- A JSON string literal. -/
def jsonString (s : String) : String :=
  "\"" ++ String.join (s.data.map jsonEscapeChar) ++ "\""

/-- `JSON.stringify({ uri, manual, csrf })` where an `undefined` `uri` is
omitted (as `JSON.stringify` omits `undefined` properties). -/
def statePayloadJson (uri : Option String) (manual : Bool) (csrf : String) : String :=
  "\x7b"
    ++ (match uri with
        | some u => "\"uri\":" ++ jsonString u ++ ","
        | none => "")
    ++ "\"manual\":" ++ (if manual then "true" else "false")
    ++ ",\"csrf\":" ++ jsonString csrf
    ++ "\x7d"

/-! ## Data model: credentials and events -/

/-- The vendor `Auth.Credentials` shape used by `AuthManager`
(`google-auth-library`): all fields optional. -/
structure Credentials where
  access_token : Option String := none
  refresh_token : Option String := none
  scope : Option String := none
  token_type : Option String := none
  expiry_date : Option JsNum := none
deriving DecidableEq

/-- The vendor `Auth.OAuth2Client`, reduced to the credential state that
`AuthManager` reads and writes (`setCredentials` / `credentials`). -/
structure OAuth2Client where
  credentials : Credentials := {}
deriving DecidableEq

/-- The storage-schema token record (`OAuthCredentials.token` of
`token-storage/types.ts`, which is not in the snapshot; the shape is pinned
by `oauth-credential-storage.ts` and spec section 3). -/
structure OAuthToken where
  accessToken : Option String := none
  refreshToken : Option String := none
  tokenType : String := "Bearer"
  scope : Option String := none
  expiresAt : Option Int := none
deriving DecidableEq

/-- The storage-schema credential record. -/
structure OAuthCredentials where
  serverName : String
  token : OAuthToken
  updatedAt : Nat
deriving DecidableEq

/-- Observable effects of one `getAuthenticatedClient` run, in program
order: credential-store operations, the throwaway ephemeral-port listener,
the callback HTTP listener, the browser launch, and HTTP responses sent
(`res.end`). -/
inductive Event where
  | loadStore : Event
  | deleteStore : Event
  | saveStore (c : OAuthCredentials) : Event
  | throwawayListen : Event
  | throwawayClose : Event
  | listenerBind (host : String) (port : Nat) : Event
  | listenerClose : Event
  | browserLaunch (url : String) : Event
  | respond (body : String) : Event
deriving DecidableEq

/-- The settled side of the `Promise.race` between the callback promise and
the 5-minute timer: either the timer fired first, or one HTTP request (with
its raw request URL, `none` for a request without URL) reached the
listener. -/
inductive CallbackOutcome where
  | timeout : CallbackOutcome
  | request (reqUrl : Option String) : CallbackOutcome
deriving DecidableEq

/-- The mutable fields of an `AuthManager` instance. -/
structure AuthManagerState where
  client : Option OAuth2Client
  scopes : List String
deriving DecidableEq

/-- The environment of one `getAuthenticatedClient` call: what the
credential store holds, the relevant environment variables, the OS-assigned
ephemeral port, GUI availability (`shouldLaunchBrowser`), the 32 random
CSRF bytes (`crypto.randomBytes(32)`), the current time (`Date.now()`), and
how the callback race settles. -/
structure AuthEnv where
  stored : Option OAuthCredentials
  portEnv : Option String
  hostEnv : Option String
  osPort : Nat
  guiAvailable : Bool
  csrfBytes : List Nat
  now : Nat
  outcome : CallbackOutcome

/-! ## `oauth-credential-storage.ts`: format conversions -/

/-- `OAuthCredentialStorage.loadCredentials` conversion of one stored
record to the Google credential shape. -/
def storedToGoogle (oc : OAuthCredentials) : Credentials :=
  { access_token := oc.token.accessToken
    refresh_token := orElseJs oc.token.refreshToken
    token_type := orElseJs (some oc.token.tokenType)
    scope := orElseJs oc.token.scope
    expiry_date :=
      match oc.token.expiresAt with
      | some e => if e = 0 then none else some (JsNum.int e)
      | none => none }

/-- `OAuthCredentialStorage.loadCredentials`: `null` when nothing is
stored, the converted record otherwise. -/
def loadStoredCredentials : Option OAuthCredentials → Option Credentials
  | none => none
  | some oc => some (storedToGoogle oc)

/-- `OAuthCredentialStorage.saveCredentials` conversion of Google
credentials to the storage schema (server key `main-account`,
`tokenType` defaulting to `Bearer`, falsy fields dropped). -/
def saveCredentialsConvert (c : Credentials) (now : Nat) : OAuthCredentials :=
  { serverName := "main-account"
    token :=
      { accessToken := orElseJs c.access_token
        refreshToken := orElseJs c.refresh_token
        tokenType := (orElseJs c.token_type).getD "Bearer"
        scope := orElseJs c.scope
        expiresAt := jsNumOrUndefined c.expiry_date }
    updatedAt := now }

/-! ## `AuthManager.ts` -/

/-- The scope set recorded on saved credentials:
`credentials.scope?.split(' ') ?? []`. -/
def savedScopesOf (c : Credentials) : List String :=
  match c.scope with
  | some s => (splitListOn ' ' s.data).map String.mk
  | none => []

/-- `AuthManager.loadCachedCredentials`: load stored credentials; if any
required scope is missing from the recorded scope set, clear the store and
report failure; otherwise install the credentials. Returns the credentials
installed on the client (if any) and the emitted store events. -/
def loadCachedCredentials (scopes : List String) (stored : Option Credentials) :
    Option Credentials × List Event :=
  match stored with
  | none => (none, [Event.loadStore])
  | some credentials =>
    let savedScopes := savedScopesOf credentials
    let missingScopes := scopes.filter (fun scope => !(savedScopes.contains scope))
    if missingScopes.length > 0 then (none, [Event.loadStore, Event.deleteStore])
    else (some credentials, [Event.loadStore])

/-- The in-memory cache guard of `getAuthenticatedClient`:
`this.client && this.client.credentials && this.client.credentials.refresh_token`. -/
def cacheUsable (st : AuthManagerState) : Bool :=
  match st.client with
  | some c => strTruthy c.credentials.refresh_token
  | none => false

/-- The fail-fast message for a bad `OAUTH_CALLBACK_PORT` value. -/
def portErrorMsg (portStr : String) : String :=
  "Invalid value for OAUTH_CALLBACK_PORT: \"" ++ portStr ++ "\""

/-- `AuthManager.getAvailablePort`: honor `OAUTH_CALLBACK_PORT` when set to
a non-empty value (rejecting when `parseInt` yields `NaN`, a value `<= 0`
or `> 65535`); otherwise bind a throwaway listener on port 0 and read back
the OS-assigned port. Returns the port or error, with the events of the
throwaway listener. -/
def getAvailablePort (portEnv : Option String) (osPort : Nat) :
    Except String Nat × List Event :=
  match portEnv with
  | some portStr =>
    if portStr ≠ "" then
      match jsParseInt portStr with
      | JsNum.nan => (Except.error (portErrorMsg portStr), [])
      | JsNum.int n =>
        if n ≤ 0 ∨ 65535 < n then (Except.error (portErrorMsg portStr), [])
        else (Except.ok n.toNat, [])
    else (Except.ok osPort, [Event.throwawayListen, Event.throwawayClose])
  | none => (Except.ok osPort, [Event.throwawayListen, Event.throwawayClose])

/-- `process.env['OAUTH_CALLBACK_HOST'] || 'localhost'`. -/
def hostOf (hostEnv : Option String) : String :=
  match hostEnv with
  | some h => if h = "" then "localhost" else h
  | none => "localhost"

/-- The fixed trusted intermediary redirect endpoint. -/
def cloudFunctionRedirectUri : String :=
  "https://google-workspace-extension.geminicli.com"

/-- Modelled from the spec: the vendor `OAuth2Client.generateAuthUrl`
(`googleapis`, not repository code) builds the authorization URL with the
fixed intermediary `redirect_uri`, `access_type=offline`, the space-joined
scopes, the base64 state payload and `prompt=consent`. -/
def generateAuthUrl (redirectUri : String) (scopes : List String) (state : String) : String :=
  "https://accounts.google.com/o/oauth2/v2/auth?redirect_uri=" ++ redirectUri
    ++ "&access_type=offline&scope=" ++ String.intercalate " " scopes
    ++ "&state=" ++ state ++ "&prompt=consent"

/-- What `authWithWeb` sets up before any request arrives. -/
structure WebLoginSetup where
  authUrl : String
  csrfToken : String
  host : String
  port : Nat
deriving DecidableEq

/-- The hex-encoded CSRF token of this flow
(`crypto.randomBytes(32).toString('hex')`). -/
def csrfTokenOf (env : AuthEnv) : String := bytesToHex env.csrfBytes

/-- The local loopback redirect URI. -/
def localRedirectUriOf (host : String) (port : Nat) : String :=
  "http://" ++ host ++ ":" ++ toString port ++ "/oauth2callback"

/-- The base64-encoded state payload of the authorization URL. -/
def stateOf (env : AuthEnv) (port : Nat) : String :=
  base64Encode
    (statePayloadJson
      (if env.guiAvailable then some (localRedirectUriOf (hostOf env.hostEnv) port) else none)
      (!env.guiAvailable) (csrfTokenOf env))

/-- The authorization URL `authWithWeb` opens in the browser. -/
def authUrlOf (scopes : List String) (env : AuthEnv) (port : Nat) : String :=
  generateAuthUrl cloudFunctionRedirectUri scopes (stateOf env port)

/-- The `OauthWebLogin` value for a successfully chosen port. -/
def webLoginSetupOf (scopes : List String) (env : AuthEnv) (port : Nat) : WebLoginSetup :=
  { authUrl := authUrlOf scopes env port
    csrfToken := csrfTokenOf env
    host := hostOf env.hostEnv
    port := port }

/-- `AuthManager.authWithWeb` up to (and including) starting the callback
listener: choose the port, derive the host, hex-encode the CSRF token,
build the base64 state payload and the authorization URL, and bind the
listener. The trace ends with the `listenerBind` event (`server.listen` is
issued before `authWithWeb` returns, hence before the browser launch). -/
def authWithWeb (scopes : List String) (env : AuthEnv) :
    Except String WebLoginSetup × List Event :=
  match getAvailablePort env.portEnv env.osPort with
  | (Except.error e, evs) => (Except.error e, evs)
  | (Except.ok port, evs) =>
    (Except.ok (webLoginSetupOf scopes env port),
     evs ++ [Event.listenerBind (hostOf env.hostEnv) port])

/-- How the callback listener's request handler settles the completion
promise. -/
inductive HandlerOutcome where
  | resolved (tokens : Credentials) : HandlerOutcome
  | rejected (msg : String) : HandlerOutcome
deriving DecidableEq

/-- The token object assembled from a successful callback request's query
parameters (`refresh_token || null`, `scope || undefined`,
`token_type || undefined`, `parseInt(expiry_date_str, 10)`). -/
def tokensOf (u : String) : Credentials :=
  { access_token := queryGet u "access_token"
    refresh_token := orElseJs (queryGet u "refresh_token")
    scope := orElseJs (queryGet u "scope")
    token_type := orElseJs (queryGet u "token_type")
    expiry_date := some (jsParseInt ((queryGet u "expiry_date").getD "")) }

/-- The callback listener's request handler (`authWithWeb`'s `http.createServer`
callback): reject unexpected paths, validate the `state` parameter against
the CSRF token, honor a provider `error`, require `access_token` and
`expiry_date`, assemble the token object; the listener is closed in the
`finally` block on every path. -/
def handleCallbackRequest (csrfToken : String) (reqUrl : Option String) :
    HandlerOutcome × List Event :=
  match reqUrl with
  | none =>
    (HandlerOutcome.rejected "OAuth callback not received. Unexpected request: undefined",
     [Event.respond "", Event.listenerClose])
  | some u =>
    if !(strStartsWith u "/oauth2callback") then
      (HandlerOutcome.rejected ("OAuth callback not received. Unexpected request: " ++ u),
       [Event.respond "", Event.listenerClose])
    else
      let returnedState := queryGet u "state"
      if returnedState ≠ some csrfToken then
        (HandlerOutcome.rejected "OAuth state mismatch. Possible CSRF attack.",
         [Event.respond "State mismatch. Possible CSRF attack.", Event.listenerClose])
      else if strTruthy (queryGet u "error") then
        let errorCode := (queryGet u "error").getD ""
        let errorDescription := (orElseJs (queryGet u "error_description")).getD
          "No additional details provided"
        (HandlerOutcome.rejected ("Google OAuth error: " ++ errorCode ++ ". " ++ errorDescription),
         [Event.respond "", Event.listenerClose])
      else
        let access_token := queryGet u "access_token"
        let expiry_date_str := queryGet u "expiry_date"
        if strTruthy access_token && strTruthy expiry_date_str then
          (HandlerOutcome.resolved (tokensOf u),
           [Event.respond "Authentication successful! Please return to the console.",
            Event.listenerClose])
        else
          (HandlerOutcome.rejected "Authentication failed: Did not receive tokens from callback.",
           [Event.listenerClose])

/-- The fixed interactive-auth timeout: `5 * 60 * 1000` milliseconds. -/
def authTimeoutMs : Nat := 5 * 60 * 1000

/-- The dedicated timeout error message. -/
def timeoutMessage : String :=
  "Authentication timed out after 5 minutes. The browser tab may have gotten stuck in a loading state. Please try again."

/-- The interactive flow of `getAuthenticatedClient`: `authWithWeb`, then
`open(authUrl)`, then the race of the completion promise against the
5-minute timer; on success persist the credentials and cache the client. -/
def interactiveFlow (st : AuthManagerState) (env : AuthEnv) :
    Except String (OAuth2Client × AuthManagerState) × List Event :=
  match authWithWeb st.scopes env with
  | (Except.error e, evs) => (Except.error e, evs)
  | (Except.ok setup, evs) =>
    let evs := evs ++ [Event.browserLaunch setup.authUrl]
    match env.outcome with
    | CallbackOutcome.timeout => (Except.error timeoutMessage, evs)
    | CallbackOutcome.request reqUrl =>
      match handleCallbackRequest setup.csrfToken reqUrl with
      | (HandlerOutcome.rejected msg, hevs) => (Except.error msg, evs ++ hevs)
      | (HandlerOutcome.resolved tokens, hevs) =>
        let client : OAuth2Client := { credentials := tokens }
        (Except.ok (client, { st with client := some client }),
         evs ++ hevs ++ [Event.saveStore (saveCredentialsConvert tokens env.now)])

/-- `getAuthenticatedClient` after the in-memory cache missed: check the
persisted credentials and either install them or run the interactive
flow. -/
def afterCache (st : AuthManagerState) (env : AuthEnv) :
    Except String (OAuth2Client × AuthManagerState) × List Event :=
  match loadCachedCredentials st.scopes (loadStoredCredentials env.stored) with
  | (some creds, evs) =>
    let client : OAuth2Client := { credentials := creds }
    (Except.ok (client, { st with client := some client }), evs)
  | (none, evs) =>
    let r := interactiveFlow st env
    (r.1, evs ++ r.2)

/-- `AuthManager.getAuthenticatedClient`: return the in-memory client when
it carries a refresh token; otherwise check persisted credentials and, if
needed, run the interactive flow. -/
def getAuthenticatedClient (st : AuthManagerState) (env : AuthEnv) :
    Except String (OAuth2Client × AuthManagerState) × List Event :=
  match st.client with
  | some c =>
    if strTruthy c.credentials.refresh_token then (Except.ok (c, st), [])
    else afterCache st env
  | none => afterCache st env

/-! ## Secure browser launcher

The implementation file (`utils/secure-browser-launcher.ts`) is not in the
repository snapshot; only its unit tests are (`src/unnamed/part_006`). The
launcher is modelled from spec section 4.7 and pinned by those tests. -/

/-- The platforms `openBrowserSecurely` dispatches on (`os.platform()`). -/
inductive Platform where
  | darwin : Platform
  | win32 : Platform
  | linux : Platform
  | other (name : String) : Platform
deriving DecidableEq

/-- One process spawn: an executable and its argument vector (never a shell
string). -/
structure Spawn where
  cmd : String
  args : List String
deriving DecidableEq

/-- Whether a URL contains one of the rejected control characters
(newline, carriage return, NUL). -/
def hasControlChar (url : String) : Bool :=
  url.data.any (fun c => c = '\n' || c = '\r' || c.toNat = 0)

/-- The scheme of an absolute URL: the lower-cased characters before the
first `:`, when they form a valid scheme (a letter followed by letters,
digits, `+`, `-` or `.`); `none` when the string does not parse as an
absolute URL. -/
def urlScheme (url : String) : Option String :=
  if url.data.contains ':' then
    let pre := url.data.takeWhile (· ≠ ':')
    match pre with
    | [] => none
    | c :: _ =>
      if c.isAlpha ∧ pre.all (fun d => d.isAlphanum || d = '+' || d = '-' || d = '.') then
        some (String.mk (pre.map Char.toLower))
      else none
  else none

/-- PowerShell literal-string escaping: every single quote doubled. -/
def psEscape (s : String) : String :=
  String.mk ((s.data.map (fun c => if c = '\x27' then [c, c] else [c])).flatten)

/-- The platform-specific spawn for an accepted URL: macOS `open` with the
URL as a single argument, Windows `powershell.exe` with fixed flags and a
`Start-Process` literal with quotes doubled, Linux `xdg-open` with the URL
as a single argument (`gnome-open` fallback on failure is outside this
model). -/
def platformSpawn (plat : Platform) (url : String) : Option Spawn :=
  match plat with
  | Platform.darwin => some { cmd := "open", args := [url] }
  | Platform.win32 =>
    some { cmd := "powershell.exe"
           args := ["-NoProfile", "-NonInteractive", "-WindowStyle", "Hidden", "-Command",
                    "Start-Process \x27" ++ psEscape url ++ "\x27"] }
  | Platform.linux => some { cmd := "xdg-open", args := [url] }
  | Platform.other _ => none

/-- Modelled from the spec: `openBrowserSecurely` (implementation file
missing from the snapshot; spec section 4.7 and the tests in
`src/unnamed/part_006`). Validate that the URL is an absolute URL, that its
scheme is exactly `http` or `https`, and that it contains no control
characters — each rejection happens before any spawn; then dispatch by
platform. Returns the outcome and the list of processes spawned. -/
def openBrowserSecurely (url : String) (plat : Platform) :
    Except String Unit × List Spawn :=
  match urlScheme url with
  | none => (Except.error "Invalid URL", [])
  | some scheme =>
    if scheme ≠ "http" ∧ scheme ≠ "https" then
      (Except.error ("Unsafe protocol: " ++ scheme), [])
    else if hasControlChar url then
      (Except.error "URL contains invalid characters", [])
    else
      match platformSpawn plat url with
      | some spawn => (Except.ok (), [spawn])
      | none => (Except.error "Unsupported platform", [])

/-! ## Hybrid token storage

The implementation file (`token-storage/hybrid-token-storage.ts`) is not in
the repository snapshot; only its unit tests are (`src/unnamed/part_010`).
The store is modelled from spec section 4.5 and pinned by those tests. -/

/-- The diagnostic backend type reported by `getStorageType`. -/
inductive TokenStorageType where
  | keychain : TokenStorageType
  | encryptedFile : TokenStorageType
deriving DecidableEq

/-- How the keychain availability probe (`isAvailable()`) behaves in this
process: resolves `true`, resolves `false`, or rejects. -/
inductive ProbeResult where
  | available : ProbeResult
  | unavailable : ProbeResult
  | throws : ProbeResult
deriving DecidableEq

/-- The process environment of the hybrid store: the force-file-storage
override (`GEMINI_CLI_WORKSPACE_FORCE_FILE_STORAGE`) and the keychain
probe's behavior. -/
structure HybridEnv where
  forceFileStorage : Bool
  probe : ProbeResult
deriving DecidableEq

/-- The hybrid store's cached backend decision (initially `none`). -/
structure HybridState where
  cached : Option TokenStorageType
deriving DecidableEq

/-- Modelled from the spec: the hybrid store's backend selection
(implementation file missing from the snapshot; spec section 4.5 and the
tests in `src/unnamed/part_010`): reuse the cached decision; else honor the
force-file override without probing; else probe the keychain, falling back
to the file store when unavailable or when the probe throws. Returns the
backend used, the new state, and how many times the probe fired. -/
def getStorage (env : HybridEnv) (st : HybridState) :
    TokenStorageType × HybridState × Nat :=
  match st.cached with
  | some b => (b, st, 0)
  | none =>
    if env.forceFileStorage then
      (TokenStorageType.encryptedFile, { cached := some TokenStorageType.encryptedFile }, 0)
    else
      match env.probe with
      | ProbeResult.available =>
        (TokenStorageType.keychain, { cached := some TokenStorageType.keychain }, 1)
      | ProbeResult.unavailable =>
        (TokenStorageType.encryptedFile, { cached := some TokenStorageType.encryptedFile }, 1)
      | ProbeResult.throws =>
        (TokenStorageType.encryptedFile, { cached := some TokenStorageType.encryptedFile }, 1)

/-- `n` successive store operations, each delegating through `getStorage`:
the final state, the total number of probe calls, and the backend each
operation delegated to. -/
def runOps (env : HybridEnv) : Nat → HybridState → HybridState × Nat × List TokenStorageType
  | 0, st => (st, 0, [])
  | n + 1, st =>
    let r := getStorage env st
    let rest := runOps env n r.2.1
    (rest.1, r.2.2 + rest.2.1, r.1 :: rest.2.2)

/-- The backend the selection algorithm settles on in a given
environment. -/
def selectedBackend (env : HybridEnv) : TokenStorageType :=
  if env.forceFileStorage then TokenStorageType.encryptedFile
  else
    match env.probe with
    | ProbeResult.available => TokenStorageType.keychain
    | _ => TokenStorageType.encryptedFile

/-! ## File-storage encryption primitive

The implementation file (`token-storage/file-token-storage.ts`) is not in
the repository snapshot; only its unit tests are
(`src/__tests__/auth/token-storage/file-token-storage.test.ts`). The
primitive is modelled from spec section 4.1: authenticated symmetric
encryption with a fresh random IV per call (the IV is an explicit input
here), serialised as three colon-separated hex fields `iv:tag:ciphertext`;
decryption fails closed on a malformed blob and on tag mismatch. The spec
names AES-256-GCM only as an example, so a concrete executable stream
cipher with an authentication tag stands in for the vendor cipher. -/

/-- One keystream byte derived from the key, the IV and the position. -/
def keystreamByte (key iv : List Nat) (i : Nat) : Nat :=
  (key.getD (i % 32) 0 + iv.getD (i % 12) 0 + i) % 256

/-- Encrypt a byte list with the keystream. -/
def encBytes (key iv : List Nat) : Nat → List Nat → List Nat
  | _, [] => []
  | i, b :: bs => (b + keystreamByte key iv i) % 256 :: encBytes key iv (i + 1) bs

/-- Decrypt a byte list with the keystream. -/
def decBytes (key iv : List Nat) : Nat → List Nat → List Nat
  | _, [] => []
  | i, b :: bs => (b + 256 - keystreamByte key iv i) % 256 :: decBytes key iv (i + 1) bs

/-- The authentication tag over key, IV and ciphertext (one byte in this
model). -/
def computeTag (key iv ct : List Nat) : List Nat :=
  [(key.sum + 3 * iv.sum + 7 * ct.sum + ct.length) % 256]

/-- Three-byte big-endian serialisation of one character's code point. -/
def charBytes (c : Char) : List Nat :=
  [c.toNat / 65536, c.toNat / 256 % 256, c.toNat % 256]

/-- Byte serialisation of the plaintext string (stand-in for UTF-8). -/
def stringToBytes (s : String) : List Nat :=
  (s.data.map charBytes).flatten

/-- Inverse of `stringToBytes`: reassemble characters from byte triples. -/
def chunkChars : List Nat → List Char
  | b1 :: b2 :: b3 :: rest => Char.ofNat (b1 * 65536 + b2 * 256 + b3) :: chunkChars rest
  | _ => []

/-- Inverse of `stringToBytes`. -/
def bytesToString (bs : List Nat) : String :=
  String.mk (chunkChars bs)

/-- `blob.split(':')`. -/
def splitOnColonStr (s : String) : List String :=
  (splitListOn ':' s.data).map String.mk

/-- Modelled from the spec: `FileTokenStorage.encrypt` (implementation file
missing from the snapshot; spec section 4.1 and the encryption tests in
`file-token-storage.test.ts`): encrypt the plaintext under the key with a
fresh random IV (explicit input), producing `ivHex:tagHex:ciphertextHex`. -/
def encrypt (plaintext : String) (key iv : List Nat) : String :=
  let ct := encBytes key iv 0 (stringToBytes plaintext)
  bytesToHex iv ++ ":" ++ bytesToHex (computeTag key iv ct) ++ ":" ++ bytesToHex ct

/-- Modelled from the spec: `FileTokenStorage.decrypt` (implementation file
missing from the snapshot; spec section 4.1 and the encryption tests):
reject any blob that does not parse into three colon-separated hex
segments with the invalid-format error, reject a tag mismatch with an
authentication error, and otherwise invert `encrypt`. -/
def decrypt (blob : String) (key : List Nat) : Except String String :=
  match splitOnColonStr blob with
  | [ivH, tagH, ctH] =>
    match hexToBytes? ivH, hexToBytes? tagH, hexToBytes? ctH with
    | some iv, some tag, some ct =>
      if computeTag key iv ct = tag then
        Except.ok (bytesToString (decBytes key iv 0 ct))
      else Except.error "Failed to decrypt data: authentication failed"
    | _, _, _ => Except.error "Invalid encrypted data format"
  | _ => Except.error "Invalid encrypted data format"

/-- Whether a blob parses into exactly three colon-separated hex
segments. -/
def hasThreeHexSegments (s : String) : Bool :=
  match splitOnColonStr s with
  | [a, b, c] => (hexToBytes? a).isSome && (hexToBytes? b).isSome && (hexToBytes? c).isSome
  | _ => false

/-! ## Concrete fixtures used by the witness theorems -/

/-- A fresh manager requiring one scope. -/
def wStA : AuthManagerState := ⟨none, ["s.a"]⟩

/-- A fresh manager requiring two scopes. -/
def wStAB : AuthManagerState := ⟨none, ["s.a", "s.b"]⟩

/-- An environment with nothing stored, an explicit port, no GUI, an
all-zero CSRF byte string, and a timed-out callback race. -/
def wEnvTimeout : AuthEnv :=
  { stored := none, portEnv := some "8080", hostEnv := none, osPort := 0,
    guiAvailable := false, csrfBytes := List.replicate 32 0, now := 7,
    outcome := CallbackOutcome.timeout }

/-- The timeout environment, but a callback request with a wrong `state`
arrives. -/
def wEnvC1 : AuthEnv :=
  { wEnvTimeout with outcome := CallbackOutcome.request (some "/oauth2callback?state=bad") }

/-- A stored credential record carrying only scope `s.a`. -/
def wStored : OAuthCredentials :=
  { serverName := "main-account"
    token := { accessToken := some "at", refreshToken := some "rt", tokenType := "Bearer",
               scope := some "s.a", expiresAt := some 5 }
    updatedAt := 3 }

/-- The timeout environment with the scope-`s.a` record stored. -/
def wEnvC2 : AuthEnv := { wEnvTimeout with stored := some wStored }

/-- A cached client whose credentials carry a refresh token. -/
def wC3Client : OAuth2Client := { credentials := { refresh_token := some "rt" } }

/-- A manager state holding that cached client. -/
def wC3St : AuthManagerState := ⟨some wC3Client, ["s.a"]⟩

/-- The hex encoding of the all-zero 32-byte CSRF token. -/
def wCsrfHex : String := bytesToHex (List.replicate 32 0)

/-- A successful callback request URL delivering no `scope` parameter. -/
def wU10 : String :=
  "/oauth2callback?state=" ++ wCsrfHex ++ "&access_token=tok&expiry_date=123"

/-- The timeout environment, but the scope-less successful callback
arrives. -/
def wEnvC10 : AuthEnv :=
  { wEnvTimeout with outcome := CallbackOutcome.request (some wU10) }

/-- A concrete 32-byte key. -/
def wKey : List Nat := List.replicate 32 7

/-! ## Helper lemmas: control flow of `getAuthenticatedClient` -/

theorem getAuthenticatedClient_cacheMiss (st : AuthManagerState) (env : AuthEnv)
    (h : cacheUsable st = false) :
    getAuthenticatedClient st env = afterCache st env := by
  unfold cacheUsable at h
  unfold getAuthenticatedClient
  cases hc : st.client with
  | none => rfl
  | some c =>
    rw [hc] at h
    have h' : strTruthy c.credentials.refresh_token = false := h
    simp [h']

theorem getAuthenticatedClient_cacheHit (st : AuthManagerState) (env : AuthEnv)
    (c : OAuth2Client) (hc : st.client = some c)
    (hr : strTruthy c.credentials.refresh_token = true) :
    getAuthenticatedClient st env = (Except.ok (c, st), []) := by
  unfold getAuthenticatedClient
  rw [hc]
  simp [hr]

theorem loadCachedCredentials_events (scopes : List String) (so : Option Credentials) :
    (loadCachedCredentials scopes so).2 = [Event.loadStore] ∨
    (loadCachedCredentials scopes so).2 = [Event.loadStore, Event.deleteStore] := by
  cases so with
  | none => simp [loadCachedCredentials]
  | some c =>
    by_cases h :
        0 < (scopes.filter (fun scope => !decide (scope ∈ savedScopesOf c))).length
    · right; simp [loadCachedCredentials, h]
    · left; simp [loadCachedCredentials, h]

theorem getAvailablePort_events (pe : Option String) (op : Nat) :
    (getAvailablePort pe op).2 = [] ∨
    (getAvailablePort pe op).2 = [Event.throwawayListen, Event.throwawayClose] := by
  cases pe with
  | none => simp [getAvailablePort]
  | some s =>
    by_cases hs : s = ""
    · right; simp [getAvailablePort, hs]
    · cases hj : jsParseInt s with
      | nan => left; simp [getAvailablePort, hs, hj]
      | int n =>
        by_cases hn : n ≤ 0 ∨ 65535 < n
        · left; simp [getAvailablePort, hs, hj, hn]
        · left; simp [getAvailablePort, hs, hj, hn]

theorem handleCallbackRequest_events (csrf : String) (r : Option String) :
    ∀ e ∈ (handleCallbackRequest csrf r).2,
      e = Event.listenerClose ∨ ∃ s, e = Event.respond s := by
  cases r with
  | none => simp [handleCallbackRequest]
  | some u =>
    by_cases h1 : strStartsWith u "/oauth2callback"
    · by_cases h2 : queryGet u "state" = some csrf
      · by_cases h3 : strTruthy (queryGet u "error")
        · simp [handleCallbackRequest, h1, h2, h3]
        · by_cases h4 :
              strTruthy (queryGet u "access_token") && strTruthy (queryGet u "expiry_date")
          · simp [handleCallbackRequest, h1, h2, h3, h4]
          · simp [handleCallbackRequest, h1, h2, h3, h4]
      · simp [handleCallbackRequest, h1, h2]
    · simp [handleCallbackRequest, h1]

theorem handleCallbackRequest_close (csrf : String) (r : Option String) :
    Event.listenerClose ∈ (handleCallbackRequest csrf r).2 := by
  cases r with
  | none => simp [handleCallbackRequest]
  | some u =>
    by_cases h1 : strStartsWith u "/oauth2callback"
    · by_cases h2 : queryGet u "state" = some csrf
      · by_cases h3 : strTruthy (queryGet u "error")
        · simp [handleCallbackRequest, h1, h2, h3]
        · by_cases h4 :
              strTruthy (queryGet u "access_token") && strTruthy (queryGet u "expiry_date")
          · simp [handleCallbackRequest, h1, h2, h3, h4]
          · simp [handleCallbackRequest, h1, h2, h3, h4]
      · simp [handleCallbackRequest, h1, h2]
    · simp [handleCallbackRequest, h1]

theorem afterCache_loadMiss (st : AuthManagerState) (env : AuthEnv) (levs : List Event)
    (hl : loadCachedCredentials st.scopes (loadStoredCredentials env.stored) = (none, levs)) :
    afterCache st env = ((interactiveFlow st env).1, levs ++ (interactiveFlow st env).2) := by
  unfold afterCache
  rw [hl]

theorem afterCache_loadHit (st : AuthManagerState) (env : AuthEnv)
    (creds : Credentials) (levs : List Event)
    (hl : loadCachedCredentials st.scopes (loadStoredCredentials env.stored) =
      (some creds, levs)) :
    afterCache st env =
      (Except.ok (⟨creds⟩, { st with client := some ⟨creds⟩ }), levs) := by
  unfold afterCache
  rw [hl]

theorem authWithWeb_portError (scopes : List String) (env : AuthEnv)
    (e : String) (pevs : List Event)
    (hp : getAvailablePort env.portEnv env.osPort = (Except.error e, pevs)) :
    authWithWeb scopes env = (Except.error e, pevs) := by
  unfold authWithWeb
  rw [hp]

theorem authWithWeb_ok (scopes : List String) (env : AuthEnv)
    (p : Nat) (pevs : List Event)
    (hp : getAvailablePort env.portEnv env.osPort = (Except.ok p, pevs)) :
    authWithWeb scopes env =
      (Except.ok (webLoginSetupOf scopes env p),
       pevs ++ [Event.listenerBind (hostOf env.hostEnv) p]) := by
  unfold authWithWeb
  rw [hp]

theorem interactiveFlow_portError (st : AuthManagerState) (env : AuthEnv)
    (e : String) (pevs : List Event)
    (hp : getAvailablePort env.portEnv env.osPort = (Except.error e, pevs)) :
    interactiveFlow st env = (Except.error e, pevs) := by
  unfold interactiveFlow
  rw [authWithWeb_portError st.scopes env e pevs hp]

theorem interactiveFlow_timeout (st : AuthManagerState) (env : AuthEnv)
    (p : Nat) (pevs : List Event)
    (hp : getAvailablePort env.portEnv env.osPort = (Except.ok p, pevs))
    (ho : env.outcome = CallbackOutcome.timeout) :
    interactiveFlow st env =
      (Except.error timeoutMessage,
       pevs ++ [Event.listenerBind (hostOf env.hostEnv) p,
                Event.browserLaunch (authUrlOf st.scopes env p)]) := by
  unfold interactiveFlow
  rw [authWithWeb_ok st.scopes env p pevs hp, ho]
  simp [webLoginSetupOf]

theorem interactiveFlow_rejected (st : AuthManagerState) (env : AuthEnv)
    (p : Nat) (pevs : List Event) (r : Option String) (msg : String) (hevs : List Event)
    (hp : getAvailablePort env.portEnv env.osPort = (Except.ok p, pevs))
    (ho : env.outcome = CallbackOutcome.request r)
    (hh : handleCallbackRequest (csrfTokenOf env) r = (HandlerOutcome.rejected msg, hevs)) :
    interactiveFlow st env =
      (Except.error msg,
       pevs ++ [Event.listenerBind (hostOf env.hostEnv) p,
                Event.browserLaunch (authUrlOf st.scopes env p)] ++ hevs) := by
  unfold interactiveFlow
  rw [authWithWeb_ok st.scopes env p pevs hp, ho]
  simp only [webLoginSetupOf]
  rw [hh]
  simp

theorem interactiveFlow_resolved (st : AuthManagerState) (env : AuthEnv)
    (p : Nat) (pevs : List Event) (r : Option String) (tokens : Credentials)
    (hevs : List Event)
    (hp : getAvailablePort env.portEnv env.osPort = (Except.ok p, pevs))
    (ho : env.outcome = CallbackOutcome.request r)
    (hh : handleCallbackRequest (csrfTokenOf env) r = (HandlerOutcome.resolved tokens, hevs)) :
    interactiveFlow st env =
      (Except.ok (⟨tokens⟩, { st with client := some ⟨tokens⟩ }),
       pevs ++ [Event.listenerBind (hostOf env.hostEnv) p,
                Event.browserLaunch (authUrlOf st.scopes env p)] ++ hevs
         ++ [Event.saveStore (saveCredentialsConvert tokens env.now)]) := by
  unfold interactiveFlow
  rw [authWithWeb_ok st.scopes env p pevs hp, ho]
  simp only [webLoginSetupOf]
  rw [hh]
  simp

theorem loadCachedCredentials_missingScope (scopes : List String) (creds : Credentials)
    (h : ∃ s ∈ scopes, (savedScopesOf creds).contains s = false) :
    loadCachedCredentials scopes (some creds) =
      (none, [Event.loadStore, Event.deleteStore]) := by
  obtain ⟨s, hs, hm⟩ := h
  have hmem : s ∉ savedScopesOf creds := by simpa using hm
  have hf : s ∈ scopes.filter (fun scope => !decide (scope ∈ savedScopesOf creds)) :=
    List.mem_filter.2 ⟨hs, by simp [hmem]⟩
  have hl : 0 < (scopes.filter (fun scope => !decide (scope ∈ savedScopesOf creds))).length :=
    List.length_pos.2 (List.ne_nil_of_mem hf)
  simp [loadCachedCredentials, hl]

theorem getAuthenticatedClient_interactive (st : AuthManagerState) (env : AuthEnv)
    (levs : List Event) (hc : cacheUsable st = false)
    (hl : loadCachedCredentials st.scopes (loadStoredCredentials env.stored) = (none, levs)) :
    getAuthenticatedClient st env =
      ((interactiveFlow st env).1, levs ++ (interactiveFlow st env).2) := by
  rw [getAuthenticatedClient_cacheMiss st env hc, afterCache_loadMiss st env levs hl]

theorem getAuthenticatedClient_ok_client (st : AuthManagerState) (env : AuthEnv)
    (c' : OAuth2Client) (st' : AuthManagerState)
    (h : (getAuthenticatedClient st env).1 = Except.ok (c', st')) :
    st'.client = some c' := by
  by_cases hc : cacheUsable st
  · unfold cacheUsable at hc
    cases hcl : st.client with
    | none => rw [hcl] at hc; simp at hc
    | some c =>
      rw [hcl] at hc
      rw [getAuthenticatedClient_cacheHit st env c hcl hc] at h
      simp at h
      obtain ⟨h1, h2⟩ := h
      rw [← h2, ← h1, hcl]
  · have hc' : cacheUsable st = false := by simpa using hc
    rw [getAuthenticatedClient_cacheMiss st env hc'] at h
    rcases hl : loadCachedCredentials st.scopes (loadStoredCredentials env.stored) with ⟨oc, levs⟩
    cases oc with
    | some creds =>
      rw [afterCache_loadHit st env creds levs hl] at h
      simp at h
      obtain ⟨h1, h2⟩ := h
      rw [← h2, ← h1]
    | none =>
      rw [afterCache_loadMiss st env levs hl] at h
      simp at h
      rcases hp : getAvailablePort env.portEnv env.osPort with ⟨pr, pevs⟩
      cases pr with
      | error e =>
        rw [interactiveFlow_portError st env e pevs hp] at h
        simp at h
      | ok p =>
        cases ho : env.outcome with
        | timeout =>
          rw [interactiveFlow_timeout st env p pevs hp ho] at h
          simp at h
        | request r =>
          rcases hh : handleCallbackRequest (csrfTokenOf env) r with ⟨out, hevs⟩
          cases out with
          | rejected msg =>
            rw [interactiveFlow_rejected st env p pevs r msg hevs hp ho hh] at h
            simp at h
          | resolved tokens =>
            rw [interactiveFlow_resolved st env p pevs r tokens hevs hp ho hh] at h
            simp at h
            obtain ⟨h1, h2⟩ := h
            rw [← h2, ← h1]

theorem interactiveFlow_ok (st : AuthManagerState) (env : AuthEnv)
    (c : OAuth2Client) (st' : AuthManagerState)
    (h : (interactiveFlow st env).1 = Except.ok (c, st')) :
    ∃ r tokens hevs, env.outcome = CallbackOutcome.request r
      ∧ handleCallbackRequest (csrfTokenOf env) r = (HandlerOutcome.resolved tokens, hevs)
      ∧ c = ⟨tokens⟩ ∧ st' = { st with client := some ⟨tokens⟩ } := by
  rcases hp : getAvailablePort env.portEnv env.osPort with ⟨pr, pevs⟩
  cases pr with
  | error e =>
    rw [interactiveFlow_portError st env e pevs hp] at h
    simp at h
  | ok p =>
    cases ho : env.outcome with
    | timeout =>
      rw [interactiveFlow_timeout st env p pevs hp ho] at h
      simp at h
    | request r =>
      rcases hh : handleCallbackRequest (csrfTokenOf env) r with ⟨out, hevs⟩
      cases out with
      | rejected msg =>
        rw [interactiveFlow_rejected st env p pevs r msg hevs hp ho hh] at h
        simp at h
      | resolved tokens =>
        rw [interactiveFlow_resolved st env p pevs r tokens hevs hp ho hh] at h
        simp at h
        exact ⟨r, tokens, hevs, rfl, hh, h.1.symm, h.2.symm⟩

/-! ## Claim theorems -/

/-- C3: if the in-memory cached client exists and its credentials carry a
refresh token, `getAuthenticatedClient` returns that very client with an
empty event trace — no credential-store read, no throwaway or callback
listener, no browser launch; and every successful call installs the
returned client as the in-memory cache (the flow never clears the cache,
so only a process restart discards it). -/
theorem c3_cached_client :
    (∀ (st : AuthManagerState) (env : AuthEnv) (c : OAuth2Client),
      st.client = some c → strTruthy c.credentials.refresh_token = true →
      getAuthenticatedClient st env = (Except.ok (c, st), []))
    ∧ (∀ (st : AuthManagerState) (env : AuthEnv) (c' : OAuth2Client) (st' : AuthManagerState),
      (getAuthenticatedClient st env).1 = Except.ok (c', st') → st'.client = some c') :=
  ⟨fun st env c hc hr => getAuthenticatedClient_cacheHit st env c hc hr,
   fun st env c' st' h => getAuthenticatedClient_ok_client st env c' st' h⟩

/-- C5: when the interactive flow is reached and the 5-minute timer wins
the race, `getAuthenticatedClient` rejects with the dedicated stuck-tab
timeout message and nothing is persisted to the credential store. -/
theorem c5_timeout (st : AuthManagerState) (env : AuthEnv)
    (levs pevs : List Event) (p : Nat)
    (hc : cacheUsable st = false)
    (hl : loadCachedCredentials st.scopes (loadStoredCredentials env.stored) = (none, levs))
    (hp : getAvailablePort env.portEnv env.osPort = (Except.ok p, pevs))
    (ho : env.outcome = CallbackOutcome.timeout) :
    (getAuthenticatedClient st env).1 = Except.error timeoutMessage
    ∧ timeoutMessage =
        "Authentication timed out after 5 minutes. The browser tab may have gotten stuck in a loading state. Please try again."
    ∧ (∀ oc, Event.saveStore oc ∉ (getAuthenticatedClient st env).2)
    ∧ authTimeoutMs = 5 * 60 * 1000 := by
  rw [getAuthenticatedClient_interactive st env levs hc hl,
      interactiveFlow_timeout st env p pevs hp ho]
  refine ⟨rfl, rfl, ?_, rfl⟩
  intro oc
  have hle := loadCachedCredentials_events st.scopes (loadStoredCredentials env.stored)
  rw [hl] at hle
  simp only at hle
  have hpe := getAvailablePort_events env.portEnv env.osPort
  rw [hp] at hpe
  simp only at hpe
  rcases hle with hle | hle <;> rcases hpe with hpe | hpe <;> simp [hle, hpe]

/-- C1: when the interactive flow is reached and the callback request hits
the `/oauth2callback` path with a `state` query parameter different from
the hex-encoded 32-byte CSRF token, the flow rejects with the CSRF
state-mismatch error, no tokens are persisted, and the callback listener
is closed. -/
theorem c1_csrf_mismatch (st : AuthManagerState) (env : AuthEnv)
    (levs pevs : List Event) (p : Nat) (u : String)
    (hc : cacheUsable st = false)
    (hl : loadCachedCredentials st.scopes (loadStoredCredentials env.stored) = (none, levs))
    (hp : getAvailablePort env.portEnv env.osPort = (Except.ok p, pevs))
    (hn : env.csrfBytes.length = 32)
    (ho : env.outcome = CallbackOutcome.request (some u))
    (hu : strStartsWith u "/oauth2callback" = true)
    (hs : queryGet u "state" ≠ some (bytesToHex env.csrfBytes)) :
    (getAuthenticatedClient st env).1 =
      Except.error "OAuth state mismatch. Possible CSRF attack."
    ∧ Event.listenerClose ∈ (getAuthenticatedClient st env).2
    ∧ ∀ oc, Event.saveStore oc ∉ (getAuthenticatedClient st env).2 := by
  have hh : handleCallbackRequest (csrfTokenOf env) (some u) =
      (HandlerOutcome.rejected "OAuth state mismatch. Possible CSRF attack.",
       [Event.respond "State mismatch. Possible CSRF attack.", Event.listenerClose]) := by
    simp [handleCallbackRequest, hu, csrfTokenOf, hs]
  rw [getAuthenticatedClient_interactive st env levs hc hl,
      interactiveFlow_rejected st env p pevs (some u) _ _ hp ho hh]
  have hle := loadCachedCredentials_events st.scopes (loadStoredCredentials env.stored)
  rw [hl] at hle
  simp only at hle
  have hpe := getAvailablePort_events env.portEnv env.osPort
  rw [hp] at hpe
  simp only at hpe
  refine ⟨rfl, by simp, ?_⟩
  intro oc
  rcases hle with hle | hle <;> rcases hpe with hpe | hpe <;> simp [hle, hpe]

/-- C2: when `getAuthenticatedClient` finds persisted credentials whose
recorded scope set misses a required scope, the stored credentials are
deleted (the store's delete operation is in the trace), the deletion
precedes any browser launch, and a successfully returned client only ever
carries credentials assembled from the interactive callback — never the
partial-scope stored ones. -/
theorem c2_partial_scope_delete (st : AuthManagerState) (env : AuthEnv)
    (oc : OAuthCredentials)
    (hc : cacheUsable st = false)
    (hst : env.stored = some oc)
    (hmiss : ∃ s ∈ st.scopes, (savedScopesOf (storedToGoogle oc)).contains s = false) :
    Event.deleteStore ∈ (getAuthenticatedClient st env).2
    ∧ (∀ i u, (getAuthenticatedClient st env).2.get? i = some (Event.browserLaunch u) →
        ∃ j, j < i ∧ (getAuthenticatedClient st env).2.get? j = some Event.deleteStore)
    ∧ (∀ c st', (getAuthenticatedClient st env).1 = Except.ok (c, st') →
        ∃ r tokens hevs, env.outcome = CallbackOutcome.request r
          ∧ handleCallbackRequest (csrfTokenOf env) r = (HandlerOutcome.resolved tokens, hevs)
          ∧ c.credentials = tokens) := by
  have hl : loadCachedCredentials st.scopes (loadStoredCredentials env.stored) =
      (none, [Event.loadStore, Event.deleteStore]) := by
    rw [hst]
    exact loadCachedCredentials_missingScope st.scopes (storedToGoogle oc) hmiss
  rw [getAuthenticatedClient_interactive st env _ hc hl]
  refine ⟨by simp, ?_, ?_⟩
  · intro i u hi
    match i with
    | 0 => simp at hi
    | 1 => simp at hi
    | (k + 2) => exact ⟨1, by omega, rfl⟩
  · intro c st' h
    simp only at h
    obtain ⟨r, tokens, hevs, hr, hh, hcc, _⟩ := interactiveFlow_ok st env c st' h
    exact ⟨r, tokens, hevs, hr, hh, by rw [hcc]⟩

/-- C6: whenever an interactive flow launches the browser, the event trace
decomposes so that the callback listener's bind immediately precedes the
browser launch — the listener is bound before the browser can navigate,
and no launch happens earlier in the trace. -/
theorem c6_bind_before_launch (st : AuthManagerState) (env : AuthEnv) (u : String)
    (h : Event.browserLaunch u ∈ (getAuthenticatedClient st env).2) :
    ∃ pre post host port,
      (getAuthenticatedClient st env).2 =
        pre ++ Event.listenerBind host port :: Event.browserLaunch u :: post
      ∧ ∀ v, Event.browserLaunch v ∉ pre := by
  by_cases hc : cacheUsable st
  · unfold cacheUsable at hc
    cases hcl : st.client with
    | none => rw [hcl] at hc; simp at hc
    | some c =>
      rw [hcl] at hc
      rw [getAuthenticatedClient_cacheHit st env c hcl hc] at h
      simp at h
  · have hc' : cacheUsable st = false := by simpa using hc
    rcases hl : loadCachedCredentials st.scopes (loadStoredCredentials env.stored) with ⟨ocr, levs⟩
    have hle := loadCachedCredentials_events st.scopes (loadStoredCredentials env.stored)
    rw [hl] at hle
    simp only at hle
    have hlevs : ∀ v, Event.browserLaunch v ∉ levs := by
      rcases hle with hle | hle <;> simp [hle]
    cases ocr with
    | some creds =>
      rw [getAuthenticatedClient_cacheMiss st env hc',
          afterCache_loadHit st env creds levs hl] at h
      simp only at h
      exact absurd h (hlevs u)
    | none =>
      rw [getAuthenticatedClient_interactive st env levs hc' hl] at h ⊢
      rcases hp : getAvailablePort env.portEnv env.osPort with ⟨pr, pevs⟩
      have hpe := getAvailablePort_events env.portEnv env.osPort
      rw [hp] at hpe
      simp only at hpe
      have hpevs : ∀ v, Event.browserLaunch v ∉ pevs := by
        rcases hpe with hpe | hpe <;> simp [hpe]
      cases pr with
      | error e =>
        rw [interactiveFlow_portError st env e pevs hp] at h
        simp only at h
        rcases List.mem_append.1 h with h | h
        · exact absurd h (hlevs u)
        · exact absurd h (hpevs u)
      | ok p =>
        have hpre : ∀ v, Event.browserLaunch v ∉ levs ++ pevs := by
          intro v hv
          rcases List.mem_append.1 hv with hv | hv
          · exact hlevs v hv
          · exact hpevs v hv
        cases ho : env.outcome with
        | timeout =>
          rw [interactiveFlow_timeout st env p pevs hp ho] at h ⊢
          have hu : u = authUrlOf st.scopes env p := by
            rcases List.mem_append.1 h with h' | h'
            · exact absurd h' (hlevs u)
            · rcases List.mem_append.1 h' with h'' | h''
              · exact absurd h'' (hpevs u)
              · simpa using h''
          subst hu
          exact ⟨levs ++ pevs, [], hostOf env.hostEnv, p, by simp, hpre⟩
        | request r =>
          rcases hh : handleCallbackRequest (csrfTokenOf env) r with ⟨out, hevs⟩
          have hhe := handleCallbackRequest_events (csrfTokenOf env) r
          rw [hh] at hhe
          simp only at hhe
          have hhevs : ∀ v, Event.browserLaunch v ∉ hevs := by
            intro v hv
            rcases hhe (Event.browserLaunch v) hv with h1 | ⟨s, h1⟩ <;> simp at h1
          cases out with
          | rejected msg =>
            rw [interactiveFlow_rejected st env p pevs r msg hevs hp ho hh] at h ⊢
            have hu : u = authUrlOf st.scopes env p := by
              rcases List.mem_append.1 h with h' | h'
              · exact absurd h' (hlevs u)
              · rcases List.mem_append.1 h' with h'' | h''
                · rcases List.mem_append.1 h'' with h3 | h3
                  · exact absurd h3 (hpevs u)
                  · simpa using h3
                · exact absurd h'' (hhevs u)
            subst hu
            exact ⟨levs ++ pevs, hevs, hostOf env.hostEnv, p, by simp, hpre⟩
          | resolved tokens =>
            rw [interactiveFlow_resolved st env p pevs r tokens hevs hp ho hh] at h ⊢
            have hu : u = authUrlOf st.scopes env p := by
              rcases List.mem_append.1 h with h' | h'
              · exact absurd h' (hlevs u)
              · rcases List.mem_append.1 h' with h'' | h''
                · rcases List.mem_append.1 h'' with h3 | h3
                  · rcases List.mem_append.1 h3 with h4 | h4
                    · exact absurd h4 (hpevs u)
                    · simpa using h4
                  · exact absurd h3 (hhevs u)
                · simp at h''
            subst hu
            exact ⟨levs ++ pevs,
                   hevs ++ [Event.saveStore (saveCredentialsConvert tokens env.now)],
                   hostOf env.hostEnv, p, by simp, hpre⟩

theorem orElseJs_none : orElseJs none = none := rfl

/-- C10: a successful interactive callback that delivers no (truthy)
`scope` query parameter installs and persists credentials whose scope is
undefined; on any later run with no in-memory client and exactly those
persisted credentials, the saved scope set is treated as empty, so with at
least one required scope the stored credentials are deleted and the flow
proceeds to the interactive flow — the persisted scope-less token is never
installed on a client. -/
theorem c10_scopeless_token (st : AuthManagerState) (env : AuthEnv)
    (levs pevs : List Event) (p : Nat) (u : String)
    (hc : cacheUsable st = false)
    (hl : loadCachedCredentials st.scopes (loadStoredCredentials env.stored) = (none, levs))
    (hp : getAvailablePort env.portEnv env.osPort = (Except.ok p, pevs))
    (ho : env.outcome = CallbackOutcome.request (some u))
    (hu : strStartsWith u "/oauth2callback" = true)
    (hs : queryGet u "state" = some (bytesToHex env.csrfBytes))
    (he : strTruthy (queryGet u "error") = false)
    (ha : strTruthy (queryGet u "access_token") = true)
    (hx : strTruthy (queryGet u "expiry_date") = true)
    (hsc : strTruthy (queryGet u "scope") = false)
    (hscopes : st.scopes ≠ []) :
    ∃ c st',
      (getAuthenticatedClient st env).1 = Except.ok (c, st')
      ∧ c.credentials.scope = none
      ∧ Event.saveStore (saveCredentialsConvert c.credentials env.now)
          ∈ (getAuthenticatedClient st env).2
      ∧ (saveCredentialsConvert c.credentials env.now).token.scope = none
      ∧ ∀ (st2 : AuthManagerState) (env2 : AuthEnv),
          st2.client = none → st2.scopes = st.scopes →
          env2.stored = some (saveCredentialsConvert c.credentials env.now) →
          loadCachedCredentials st2.scopes (loadStoredCredentials env2.stored) =
            (none, [Event.loadStore, Event.deleteStore])
          ∧ getAuthenticatedClient st2 env2 =
              ((interactiveFlow st2 env2).1,
               [Event.loadStore, Event.deleteStore] ++ (interactiveFlow st2 env2).2)
          ∧ Event.deleteStore ∈ (getAuthenticatedClient st2 env2).2 := by
  have hh : handleCallbackRequest (csrfTokenOf env) (some u) =
      (HandlerOutcome.resolved (tokensOf u),
       [Event.respond "Authentication successful! Please return to the console.",
        Event.listenerClose]) := by
    simp [handleCallbackRequest, hu, csrfTokenOf, hs, he, ha, hx]
  rw [getAuthenticatedClient_interactive st env levs hc hl,
      interactiveFlow_resolved st env p pevs (some u) (tokensOf u) _ hp ho hh]
  have hscope : (tokensOf u).scope = none := by
    simp [tokensOf, orElseJs, hsc]
  have hsaved : (saveCredentialsConvert (tokensOf u) env.now).token.scope = none := by
    simp [saveCredentialsConvert, hscope, orElseJs_none]
  refine ⟨⟨tokensOf u⟩, { st with client := some ⟨tokensOf u⟩ }, rfl, hscope, by simp,
    hsaved, ?_⟩
  intro st2 env2 h2c h2s h2st
  have hc2 : cacheUsable st2 = false := by simp [cacheUsable, h2c]
  have hsg : savedScopesOf (storedToGoogle (saveCredentialsConvert (tokensOf u) env.now)) = [] := by
    simp [savedScopesOf, storedToGoogle, hsaved, orElseJs_none]
  have hload : loadCachedCredentials st2.scopes (loadStoredCredentials env2.stored) =
      (none, [Event.loadStore, Event.deleteStore]) := by
    rw [h2st]
    apply loadCachedCredentials_missingScope
    have hne : st2.scopes ≠ [] := by rw [h2s]; exact hscopes
    obtain ⟨s, hsmem⟩ := List.exists_mem_of_ne_nil _ hne
    exact ⟨s, hsmem, by simp [hsg]⟩
  refine ⟨hload, getAuthenticatedClient_interactive st2 env2 _ hc2 hload, ?_⟩
  rw [getAuthenticatedClient_interactive st2 env2 _ hc2 hload]
  simp

/-- C4 counterexample: `OAUTH_CALLBACK_PORT="80abc"` is not a decimal
integer, yet the flow does not fail fast — JS `parseInt` accepts the
leading digits and port 80 is used. -/
theorem c4_counterexample :
    getAvailablePort (some "80abc") 0 = (Except.ok 80, [])
    ∧ "80abc".data.all Char.isDigit = false := by
  constructor
  · rfl
  · rfl

/-- C4 (amended): with `OAUTH_CALLBACK_PORT` set to a non-empty value, the
flow fails fast with an error naming the variable exactly when JS
`parseInt` yields `NaN` or a value outside `[1, 65535]`; otherwise the
`parseInt` result is used as the port (trailing non-numeric characters
after a leading integer are ignored). When the variable is unset, an
ephemeral port is obtained from a throwaway listener on port 0 that is
closed again. -/
theorem c4_port_selection (portStr : String) (osPort : Nat) (hne : portStr ≠ "") :
    ((∃ n : Int, jsParseInt portStr = JsNum.int n ∧ 0 < n ∧ n ≤ 65535
        ∧ getAvailablePort (some portStr) osPort = (Except.ok n.toNat, []))
      ∨ getAvailablePort (some portStr) osPort = (Except.error (portErrorMsg portStr), []))
    ∧ (getAvailablePort (some portStr) osPort = (Except.error (portErrorMsg portStr), [])
        ↔ jsParseInt portStr = JsNum.nan
          ∨ ∃ n : Int, jsParseInt portStr = JsNum.int n ∧ (n ≤ 0 ∨ 65535 < n))
    ∧ portErrorMsg portStr = "Invalid value for OAUTH_CALLBACK_PORT: \"" ++ portStr ++ "\""
    ∧ getAvailablePort none osPort =
        (Except.ok osPort, [Event.throwawayListen, Event.throwawayClose]) := by
  refine ⟨?_, ?_, rfl, rfl⟩
  · cases hj : jsParseInt portStr with
    | nan => right; simp [getAvailablePort, hne, hj]
    | int n =>
      by_cases hr : n ≤ 0 ∨ 65535 < n
      · right; simp [getAvailablePort, hne, hj, hr]
      · left
        exact ⟨n, rfl, by omega, by omega, by simp [getAvailablePort, hne, hj, hr]⟩
  · constructor
    · intro h
      cases hj : jsParseInt portStr with
      | nan => exact Or.inl rfl
      | int n =>
        by_cases hr : n ≤ 0 ∨ 65535 < n
        · exact Or.inr ⟨n, rfl, hr⟩
        · exfalso
          simp [getAvailablePort, hne, hj, hr] at h
    · rintro (hj | ⟨n, hj, hr⟩)
      · simp [getAvailablePort, hne, hj]
      · simp [getAvailablePort, hne, hj, hr]

/-- C7: `openBrowserSecurely` rejects any URL whose scheme is not exactly
`http` or `https` with the unsafe-protocol error, rejects any http(s) URL
containing a newline, carriage return or NUL with the invalid-characters
error — in both cases without spawning any process — and passes an
accepted URL to the platform launcher inside a single argument-vector
element (macOS `open`, Linux `xdg-open`, and on Windows the quoted
`Start-Process` PowerShell literal with every single quote doubled). -/
theorem c7_launcher_validation (url : String) (plat : Platform) :
    (∀ s, urlScheme url = some s → s ≠ "http" → s ≠ "https" →
      openBrowserSecurely url plat = (Except.error ("Unsafe protocol: " ++ s), []))
    ∧ (∀ s, urlScheme url = some s → (s = "http" ∨ s = "https") →
      hasControlChar url = true →
      openBrowserSecurely url plat = (Except.error "URL contains invalid characters", []))
    ∧ (∀ s, urlScheme url = some s → (s = "http" ∨ s = "https") →
      hasControlChar url = false →
      (plat = Platform.darwin →
        openBrowserSecurely url plat = (Except.ok (), [⟨"open", [url]⟩]))
      ∧ (plat = Platform.linux →
        openBrowserSecurely url plat = (Except.ok (), [⟨"xdg-open", [url]⟩]))
      ∧ (plat = Platform.win32 →
        openBrowserSecurely url plat = (Except.ok (),
          [⟨"powershell.exe",
            ["-NoProfile", "-NonInteractive", "-WindowStyle", "Hidden", "-Command",
             "Start-Process \x27" ++ psEscape url ++ "\x27"]⟩]))) := by
  refine ⟨?_, ?_, ?_⟩
  · intro s hsch h1 h2
    simp [openBrowserSecurely, hsch, h1, h2]
  · intro s hsch hor hctl
    have hss : ¬(s ≠ "http" ∧ s ≠ "https") := by
      rcases hor with h | h <;> simp [h]
    simp [openBrowserSecurely, hsch, hss, hctl]
  · intro s hsch hor hctl
    have hss : ¬(s ≠ "http" ∧ s ≠ "https") := by
      rcases hor with h | h <;> simp [h]
    refine ⟨?_, ?_, ?_⟩ <;> intro hp <;> subst hp <;>
      simp [openBrowserSecurely, hsch, hss, hctl, platformSpawn]

theorem runOps_cached (env : HybridEnv) (b : TokenStorageType) :
    ∀ m, runOps env m ⟨some b⟩ = (⟨some b⟩, 0, List.replicate m b) := by
  intro m
  induction m with
  | zero => rfl
  | succ k ih => simp [runOps, getStorage, ih, List.replicate_succ]

/-- C8: starting from an undecided hybrid store, any positive number of
store operations probes the keychain exactly once — or not at all when the
force-file override is set — and every operation delegates to the single
cached backend: the keychain exactly when the probe resolves available,
the encrypted file store when the override is set or the probe is
unavailable or throws. -/
theorem c8_hybrid_selection (env : HybridEnv) (n : Nat) (h : 1 ≤ n) :
    runOps env n ⟨none⟩ =
      (⟨some (selectedBackend env)⟩,
       (if env.forceFileStorage then 0 else 1),
       List.replicate n (selectedBackend env)) := by
  obtain ⟨m, rfl⟩ : ∃ m, n = m + 1 := ⟨n - 1, by omega⟩
  by_cases hf : env.forceFileStorage
  · simp [runOps, getStorage, hf, selectedBackend, runOps_cached, List.replicate_succ]
  · cases hp : env.probe with
    | available =>
      simp [runOps, getStorage, hf, hp, selectedBackend, runOps_cached, List.replicate_succ]
    | unavailable =>
      simp [runOps, getStorage, hf, hp, selectedBackend, runOps_cached, List.replicate_succ]
    | throws =>
      simp [runOps, getStorage, hf, hp, selectedBackend, runOps_cached, List.replicate_succ]

/-! ## Helper lemmas: hex, colon splitting and the cipher -/

theorem hexVal?_hexDigit_fin : ∀ m : Fin 16, hexVal? (hexDigit m.val) = some m.val := by
  decide

theorem hexVal?_hexDigit (m : Nat) (h : m < 16) : hexVal? (hexDigit m) = some m :=
  hexVal?_hexDigit_fin ⟨m, h⟩

theorem hexDigit_ne_colon_fin : ∀ m : Fin 16, hexDigit m.val ≠ ':' := by
  decide

theorem hexDigit_ne_colon (m : Nat) (h : m < 16) : hexDigit m ≠ ':' :=
  hexDigit_ne_colon_fin ⟨m, h⟩

theorem hexPairs?_bytesToHex (bs : List Nat) (h : ValidBytes bs) :
    hexPairs? ((bs.map byteToHex).flatten) = some bs := by
  induction bs with
  | nil => rfl
  | cons b bs ih =>
    have hb : b < 256 := h b (List.mem_cons_self b bs)
    have hrest : ValidBytes bs := fun x hx => h x (List.mem_cons_of_mem b hx)
    have h1 : b / 16 % 16 < 16 := Nat.mod_lt _ (by omega)
    have h2 : b % 16 < 16 := Nat.mod_lt _ (by omega)
    simp [byteToHex, hexPairs?, hexVal?_hexDigit _ h1, hexVal?_hexDigit _ h2, ih hrest]
    omega

theorem hexToBytes?_bytesToHex (bs : List Nat) (h : ValidBytes bs) :
    hexToBytes? (bytesToHex bs) = some bs := by
  unfold hexToBytes? bytesToHex
  simpa using hexPairs?_bytesToHex bs h

theorem colon_not_mem_hexChars (bs : List Nat) : ':' ∉ ((bs.map byteToHex).flatten) := by
  induction bs with
  | nil => simp
  | cons b bs ih =>
    simp only [List.map_cons, List.flatten_cons, List.mem_append]
    rintro (h | h)
    · have h1 : b / 16 % 16 < 16 := Nat.mod_lt _ (by omega)
      have h2 : b % 16 < 16 := Nat.mod_lt _ (by omega)
      simp [byteToHex] at h
      rcases h with h | h
      · exact hexDigit_ne_colon _ h1 h.symm
      · exact hexDigit_ne_colon _ h2 h.symm
    · exact ih h

theorem colon_not_mem_bytesToHex (bs : List Nat) : ':' ∉ (bytesToHex bs).data :=
  colon_not_mem_hexChars bs

theorem splitListOn_colon_append (a t : List Char) (h : ':' ∉ a) :
    splitListOn ':' (a ++ ':' :: t) = a :: splitListOn ':' t := by
  induction a with
  | nil => simp [splitListOn]
  | cons c a ih =>
    have hc : c ≠ ':' := fun hh => h (hh ▸ List.mem_cons_self c a)
    have ha : ':' ∉ a := fun hm => h (List.mem_cons_of_mem c hm)
    simp [splitListOn, hc, ih ha]

theorem splitListOn_colon_noColon (a : List Char) (h : ':' ∉ a) :
    splitListOn ':' a = [a] := by
  induction a with
  | nil => rfl
  | cons c a ih =>
    have hc : c ≠ ':' := fun hh => h (hh ▸ List.mem_cons_self c a)
    have ha : ':' ∉ a := fun hm => h (List.mem_cons_of_mem c hm)
    simp [splitListOn, hc, ih ha]

theorem splitOnColonStr_three (s1 s2 s3 : String)
    (h1 : ':' ∉ s1.data) (h2 : ':' ∉ s2.data) (h3 : ':' ∉ s3.data) :
    splitOnColonStr (s1 ++ ":" ++ s2 ++ ":" ++ s3) = [s1, s2, s3] := by
  unfold splitOnColonStr
  have hdata : (s1 ++ ":" ++ s2 ++ ":" ++ s3).data
      = s1.data ++ ':' :: (s2.data ++ ':' :: s3.data) := by
    simp [String.data_append]
  rw [hdata, splitListOn_colon_append _ _ h1, splitListOn_colon_append _ _ h2,
      splitListOn_colon_noColon _ h3]
  rfl

theorem keystreamByte_lt (key iv : List Nat) (i : Nat) : keystreamByte key iv i < 256 :=
  Nat.mod_lt _ (by omega)

theorem encBytes_valid (key iv : List Nat) :
    ∀ i bs, ValidBytes (encBytes key iv i bs) := by
  intro i bs
  induction bs generalizing i with
  | nil => intro b hb; simp [encBytes] at hb
  | cons x bs ih =>
    intro b hb
    simp only [encBytes, List.mem_cons] at hb
    rcases hb with hb | hb
    · exact hb ▸ Nat.mod_lt _ (by omega)
    · exact ih (i + 1) b hb

theorem computeTag_valid (key iv ct : List Nat) : ValidBytes (computeTag key iv ct) := by
  intro b hb
  simp only [computeTag, List.mem_singleton] at hb
  exact hb ▸ Nat.mod_lt _ (by omega)

theorem decBytes_encBytes (key iv : List Nat) :
    ∀ i bs, ValidBytes bs → decBytes key iv i (encBytes key iv i bs) = bs := by
  intro i bs
  induction bs generalizing i with
  | nil => intro _; rfl
  | cons x bs ih =>
    intro h
    have hx : x < 256 := h x (List.mem_cons_self x bs)
    have hrest : ValidBytes bs := fun y hy => h y (List.mem_cons_of_mem x hy)
    have hk := keystreamByte_lt key iv i
    simp only [encBytes, decBytes, ih (i + 1) hrest, List.cons.injEq, and_true]
    omega

theorem char_toNat_lt (c : Char) : c.toNat < 1114112 := by
  have h0 : c.toNat = c.val.toNat := rfl
  rcases c.valid with h | ⟨h1, h2⟩ <;> omega

theorem charBytes_valid (c : Char) : ValidBytes (charBytes c) := by
  have hc := char_toNat_lt c
  intro b hb
  simp only [charBytes, List.mem_cons, List.mem_singleton, List.not_mem_nil, or_false] at hb
  rcases hb with hb | hb | hb <;> subst hb <;> omega

theorem stringToBytes_valid (s : String) : ValidBytes (stringToBytes s) := by
  intro b hb
  simp only [stringToBytes, List.mem_flatten, List.mem_map] at hb
  obtain ⟨l, ⟨c, _, rfl⟩, hb⟩ := hb
  exact charBytes_valid c b hb

theorem chunkChars_charBytes (c : Char) (rest : List Nat) :
    chunkChars (charBytes c ++ rest) = c :: chunkChars rest := by
  have hc := char_toNat_lt c
  simp only [charBytes, List.cons_append, List.nil_append, chunkChars, List.cons.injEq]
  refine ⟨?_, rfl⟩
  have heq : c.toNat / 65536 * 65536 + c.toNat / 256 % 256 * 256 + c.toNat % 256
      = c.toNat := by omega
  rw [heq]
  exact Char.ofNat_toNat c

theorem bytesToString_stringToBytes (s : String) :
    bytesToString (stringToBytes s) = s := by
  unfold bytesToString stringToBytes
  have h : ∀ l : List Char, chunkChars ((l.map charBytes).flatten) = l := by
    intro l
    induction l with
    | nil => rfl
    | cons c l ih =>
      simp only [List.map_cons, List.flatten_cons]
      rw [chunkChars_charBytes, ih]
  rw [h]

/-- C9: the modelled file-storage encryption primitive satisfies the spec
contract: decryption inverts encryption under the same 32-byte key;
encrypting the same plaintext under two different IVs (fresh random IV per
call) yields different blobs; and any blob that does not parse into three
colon-separated hex segments is rejected with the invalid-format error. -/
theorem c9_encrypt_decrypt (P : String) (key iv1 iv2 : List Nat)
    (hkeyLen : key.length = 32) (hkey : ValidBytes key)
    (hiv1 : ValidBytes iv1) (hiv2 : ValidBytes iv2) :
    decrypt (encrypt P key iv1) key = Except.ok P
    ∧ (iv1 ≠ iv2 → encrypt P key iv1 ≠ encrypt P key iv2)
    ∧ (∀ s, hasThreeHexSegments s = false →
        decrypt s key = Except.error "Invalid encrypted data format") := by
  refine ⟨?_, ?_, ?_⟩
  · unfold encrypt decrypt
    rw [splitOnColonStr_three _ _ _ (colon_not_mem_bytesToHex iv1)
          (colon_not_mem_bytesToHex (computeTag key iv1 (encBytes key iv1 0 (stringToBytes P))))
          (colon_not_mem_bytesToHex (encBytes key iv1 0 (stringToBytes P)))]
    simp [hexToBytes?_bytesToHex _ hiv1,
          hexToBytes?_bytesToHex _ (computeTag_valid key iv1 _),
          hexToBytes?_bytesToHex _ (encBytes_valid key iv1 0 (stringToBytes P)),
          decBytes_encBytes key iv1 0 _ (stringToBytes_valid P),
          bytesToString_stringToBytes]
  · intro hne heq
    apply hne
    have h1 := congrArg splitOnColonStr heq
    unfold encrypt at h1
    rw [splitOnColonStr_three _ _ _ (colon_not_mem_bytesToHex iv1)
          (colon_not_mem_bytesToHex _) (colon_not_mem_bytesToHex _),
        splitOnColonStr_three _ _ _ (colon_not_mem_bytesToHex iv2)
          (colon_not_mem_bytesToHex _) (colon_not_mem_bytesToHex _)] at h1
    have h2 : bytesToHex iv1 = bytesToHex iv2 := by
      injection h1 with h2 _
    have h3 := hexToBytes?_bytesToHex iv1 hiv1
    rw [h2, hexToBytes?_bytesToHex iv2 hiv2] at h3
    exact Option.some.inj h3.symm
  · intro s hs
    unfold hasThreeHexSegments at hs
    unfold decrypt
    cases hsp : splitOnColonStr s with
    | nil => rfl
    | cons a tail =>
      cases tail with
      | nil => rfl
      | cons b tail2 =>
        cases tail2 with
        | nil => rfl
        | cons c tail3 =>
          cases tail3 with
          | cons d tail4 => rfl
          | nil =>
            rw [hsp] at hs
            cases ha : hexToBytes? a <;> cases hb : hexToBytes? b <;>
              cases hc : hexToBytes? c <;> simp [ha, hb, hc] at hs ⊢

/-! ## Witnesses -/

/-- Witness for C1 at a concrete mismatching callback. -/
theorem c1_csrf_mismatch_witness :
    (getAuthenticatedClient wStA wEnvC1).1 =
      Except.error "OAuth state mismatch. Possible CSRF attack."
    ∧ Event.listenerClose ∈ (getAuthenticatedClient wStA wEnvC1).2
    ∧ ∀ oc, Event.saveStore oc ∉ (getAuthenticatedClient wStA wEnvC1).2 :=
  c1_csrf_mismatch wStA wEnvC1 [Event.loadStore] [] 8080 "/oauth2callback?state=bad"
    rfl rfl rfl (by decide) rfl (by decide) (by decide)

/-- Witness for C2 at a concrete under-scoped stored record. -/
theorem c2_partial_scope_delete_witness :
    Event.deleteStore ∈ (getAuthenticatedClient wStAB wEnvC2).2
    ∧ (∀ i u, (getAuthenticatedClient wStAB wEnvC2).2.get? i = some (Event.browserLaunch u) →
        ∃ j, j < i ∧ (getAuthenticatedClient wStAB wEnvC2).2.get? j = some Event.deleteStore)
    ∧ (∀ c st', (getAuthenticatedClient wStAB wEnvC2).1 = Except.ok (c, st') →
        ∃ r tokens hevs, wEnvC2.outcome = CallbackOutcome.request r
          ∧ handleCallbackRequest (csrfTokenOf wEnvC2) r = (HandlerOutcome.resolved tokens, hevs)
          ∧ c.credentials = tokens) :=
  c2_partial_scope_delete wStAB wEnvC2 wStored rfl rfl ⟨"s.b", by decide, by decide⟩

/-- Witness for C3 at a concrete cached client. -/
theorem c3_cached_client_witness :
    getAuthenticatedClient wC3St wEnvTimeout = (Except.ok (wC3Client, wC3St), [])
    ∧ wC3St.client = some wC3Client := by
  have h1 := c3_cached_client.1 wC3St wEnvTimeout wC3Client rfl (by decide)
  exact ⟨h1, c3_cached_client.2 wC3St wEnvTimeout wC3Client wC3St (by rw [h1])⟩

/-- Witness for C4 (amended) at a concrete value. -/
theorem c4_port_selection_witness :
    ((∃ n : Int, jsParseInt "8080" = JsNum.int n ∧ 0 < n ∧ n ≤ 65535
        ∧ getAvailablePort (some "8080") 5 = (Except.ok n.toNat, []))
      ∨ getAvailablePort (some "8080") 5 = (Except.error (portErrorMsg "8080"), []))
    ∧ (getAvailablePort (some "8080") 5 = (Except.error (portErrorMsg "8080"), [])
        ↔ jsParseInt "8080" = JsNum.nan
          ∨ ∃ n : Int, jsParseInt "8080" = JsNum.int n ∧ (n ≤ 0 ∨ 65535 < n))
    ∧ portErrorMsg "8080" = "Invalid value for OAUTH_CALLBACK_PORT: \"" ++ "8080" ++ "\""
    ∧ getAvailablePort none 5 =
        (Except.ok 5, [Event.throwawayListen, Event.throwawayClose]) :=
  c4_port_selection "8080" 5 (by decide)

/-- Witness for C5 at a concrete timed-out flow. -/
theorem c5_timeout_witness :
    (getAuthenticatedClient wStA wEnvTimeout).1 = Except.error timeoutMessage
    ∧ timeoutMessage =
        "Authentication timed out after 5 minutes. The browser tab may have gotten stuck in a loading state. Please try again."
    ∧ (∀ oc, Event.saveStore oc ∉ (getAuthenticatedClient wStA wEnvTimeout).2)
    ∧ authTimeoutMs = 5 * 60 * 1000 :=
  c5_timeout wStA wEnvTimeout [Event.loadStore] [] 8080 rfl rfl rfl rfl

/-- Witness for C6 at a concrete interactive flow. -/
theorem c6_bind_before_launch_witness :
    ∃ pre post host port,
      (getAuthenticatedClient wStA wEnvTimeout).2 =
        pre ++ Event.listenerBind host port ::
          Event.browserLaunch (authUrlOf ["s.a"] wEnvTimeout 8080) :: post
      ∧ ∀ v, Event.browserLaunch v ∉ pre :=
  c6_bind_before_launch wStA wEnvTimeout (authUrlOf ["s.a"] wEnvTimeout 8080) (by decide)

/-- Witness for C7 at concrete URLs: an unsafe scheme, a control
character, and an accepted URL on macOS. -/
theorem c7_launcher_validation_witness :
    openBrowserSecurely "ftp://example.com" Platform.darwin =
      (Except.error ("Unsafe protocol: " ++ "ftp"), [])
    ∧ openBrowserSecurely "http://example.com\nmalicious" Platform.darwin =
      (Except.error "URL contains invalid characters", [])
    ∧ openBrowserSecurely "http://example.com" Platform.darwin =
      (Except.ok (), [⟨"open", ["http://example.com"]⟩]) :=
  ⟨(c7_launcher_validation "ftp://example.com" Platform.darwin).1 "ftp"
      (by decide) (by decide) (by decide),
   (c7_launcher_validation "http://example.com\nmalicious" Platform.darwin).2.1 "http"
      (by decide) (Or.inl rfl) (by decide),
   ((c7_launcher_validation "http://example.com" Platform.darwin).2.2 "http"
      (by decide) (Or.inl rfl) (by decide)).1 rfl⟩

/-- Witness for C8 with an available keychain and three operations. -/
theorem c8_hybrid_selection_witness :
    runOps ⟨false, ProbeResult.available⟩ 3 ⟨none⟩ =
      (⟨some (selectedBackend ⟨false, ProbeResult.available⟩)⟩,
       (if (⟨false, ProbeResult.available⟩ : HybridEnv).forceFileStorage then 0 else 1),
       List.replicate 3 (selectedBackend ⟨false, ProbeResult.available⟩)) :=
  c8_hybrid_selection ⟨false, ProbeResult.available⟩ 3 (by decide)

/-- Witness for C9 at a concrete plaintext, key and IVs. -/
theorem c9_encrypt_decrypt_witness :
    decrypt (encrypt "test-data-123" wKey [1, 2, 3]) wKey = Except.ok "test-data-123"
    ∧ encrypt "test-data-123" wKey [1, 2, 3] ≠ encrypt "test-data-123" wKey [9, 2, 3]
    ∧ decrypt "invalid-data" wKey = Except.error "Invalid encrypted data format" := by
  have h := c9_encrypt_decrypt "test-data-123" wKey [1, 2, 3] [9, 2, 3]
    (by decide) (by decide) (by decide) (by decide)
  exact ⟨h.1, h.2.1 (by decide), h.2.2 "invalid-data" (by decide)⟩

/-- Witness for C10 at a concrete scope-less successful callback. -/
theorem c10_scopeless_token_witness :
    ∃ c st',
      (getAuthenticatedClient wStA wEnvC10).1 = Except.ok (c, st')
      ∧ c.credentials.scope = none
      ∧ Event.saveStore (saveCredentialsConvert c.credentials wEnvC10.now)
          ∈ (getAuthenticatedClient wStA wEnvC10).2
      ∧ (saveCredentialsConvert c.credentials wEnvC10.now).token.scope = none
      ∧ ∀ (st2 : AuthManagerState) (env2 : AuthEnv),
          st2.client = none → st2.scopes = wStA.scopes →
          env2.stored = some (saveCredentialsConvert c.credentials wEnvC10.now) →
          loadCachedCredentials st2.scopes (loadStoredCredentials env2.stored) =
            (none, [Event.loadStore, Event.deleteStore])
          ∧ getAuthenticatedClient st2 env2 =
              ((interactiveFlow st2 env2).1,
               [Event.loadStore, Event.deleteStore] ++ (interactiveFlow st2 env2).2)
          ∧ Event.deleteStore ∈ (getAuthenticatedClient st2 env2).2 :=
  c10_scopeless_token wStA wEnvC10 [Event.loadStore] [] 8080 wU10
    rfl rfl rfl rfl (by decide) (by decide) (by decide) (by decide) (by decide)
    (by decide) (by decide)

end GWS
